import Mathlib

/-!
# Python-LLFUSE: the platform / version gate of `src/llfuse.h`

`llfuse.h` consists of preprocessor directives only.  This development embeds
the directives of the header one for one as a list of `Directive`s and gives
them the usual conditional-inclusion semantics of the C preprocessor (a stack
of conditional groups, `#if`/`#elif` on the value of a constant expression in
which every identifier left after macro replacement counts as `0`, `#ifdef` on
a macro being defined).  A *configuration* is the state of the macros the
header looks at: the predefined platform macros of the compiler and the two
version macros that `#include <fuse.h>` brings in.
-/

namespace Llfuse

/-! ## Macros, tokens and controlling expressions -/

/-- The macro names that occur in `llfuse.h`. -/
inductive Macro
  | FUSE_VERSION
  | FUSE_MAJOR_VERSION
  | PLATFORM_LINUX
  | PLATFORM_BSD
  | PLATFORM_DARWIN
  | PLATFORM
  | __gnu_linux__
  | __FreeBSD__
  | __NetBSD__
  | __APPLE__
  | __MACH__
  deriving DecidableEq, Repr

/-- A replacement list of one token: an integer constant or another name. -/
inductive Tok
  | num (v : Int)
  | name (m : Macro)
  deriving DecidableEq, Repr

/-- The macro table: `none` is "not defined". -/
abbrev MacroTable := Macro → Option Tok

/-- Controlling expressions of `#if` / `#elif`, as far as the header uses them. -/
inductive Expr
  | num (v : Int)
  | ident (m : Macro)
  | lt (a b : Expr)
  | ne (a b : Expr)
  | land (a b : Expr)
  deriving Repr

/-- The directives of the header: `#include <fuse.h>`, `#if e`, `#ifdef m`, `#elif e`,
`#else`, `#endif`, `#define m body` and `#error msg`. -/
inductive Directive
  | includeFuse
  | if_ (e : Expr)
  | ifdef (m : Macro)
  | elif (e : Expr)
  | else_
  | endif
  | define (m : Macro) (body : Tok)
  | error (msg : String)
  deriving Repr

/-- Full macro replacement of one token, then evaluation: an undefined name (or
one that comes up again inside its own replacement, when the fuel is used up)
is replaced by `0`, as in a `#if` expression. -/
def expand (T : MacroTable) : Nat → Tok → Int
  | _, .num v => v
  | 0, .name _ => 0
  | fuel + 1, .name m =>
    match T m with
    | some t => expand T fuel t
    | none => 0

/-- There are eleven macro names, so eleven rounds of replacement are enough. -/
def expandFuel : Nat := 11

/-- Value of a controlling expression; comparisons and `&&` yield `0` or `1`. -/
def Expr.eval (T : MacroTable) : Expr → Int
  | .num v => v
  | .ident m => expand T expandFuel (.name m)
  | .lt a b => if a.eval T < b.eval T then 1 else 0
  | .ne a b => if a.eval T ≠ b.eval T then 1 else 0
  | .land a b => if a.eval T ≠ 0 ∧ b.eval T ≠ 0 then 1 else 0

/-! ## Conditional inclusion -/

/-- One open conditional group: whether its current branch is being included,
and whether some branch of it has been included already. -/
structure Frame where
  active : Bool
  taken : Bool
  deriving DecidableEq, Repr

/-- State of the preprocessor while it reads the header. -/
structure PPState where
  table : MacroTable
  stack : List Frame
  diags : List String

/-- Text is included when every open conditional group is in an included branch. -/
def including (stack : List Frame) : Bool := stack.all (fun f => f.active)

/-- Redefine one macro. -/
def MacroTable.set (T : MacroTable) (m : Macro) (body : Tok) : MacroTable :=
  fun k => if k = m then some body else T k

/-- Add the definitions of an included file. -/
def MacroTable.overlay (T lib : MacroTable) : MacroTable :=
  fun k => match lib k with
    | some t => some t
    | none => T k

/-- Process one directive. `lib` holds what `#include <fuse.h>` defines.  A directive
in a skipped group only keeps track of the nesting; the expression of an `#elif` is
evaluated only when no earlier branch of its group was taken; a reached `#error` is
recorded as a diagnostic and the rest of the file is still read, as compilers do (the
build has failed as soon as one diagnostic is recorded). -/
def step (lib : MacroTable) (s : PPState) : Directive → PPState
  | .includeFuse =>
    if including s.stack then { s with table := s.table.overlay lib } else s
  | .if_ e =>
    if including s.stack then
      let b := decide (e.eval s.table ≠ 0)
      { s with stack := ⟨b, b⟩ :: s.stack }
    else { s with stack := ⟨false, true⟩ :: s.stack }
  | .ifdef m =>
    if including s.stack then
      let b := (s.table m).isSome
      { s with stack := ⟨b, b⟩ :: s.stack }
    else { s with stack := ⟨false, true⟩ :: s.stack }
  | .elif e =>
    match s.stack with
    | [] => { s with diags := s.diags ++ ["#elif without #if"] }
    | f :: rest =>
      if including rest && !f.taken then
        let b := decide (e.eval s.table ≠ 0)
        { s with stack := ⟨b, b⟩ :: rest }
      else { s with stack := ⟨false, true⟩ :: rest }
  | .else_ =>
    match s.stack with
    | [] => { s with diags := s.diags ++ ["#else without #if"] }
    | f :: rest => { s with stack := ⟨including rest && !f.taken, true⟩ :: rest }
  | .endif =>
    match s.stack with
    | [] => { s with diags := s.diags ++ ["#endif without #if"] }
    | _ :: rest => { s with stack := rest }
  | .define m body =>
    if including s.stack then { s with table := s.table.set m body } else s
  | .error msg =>
    if including s.stack then { s with diags := s.diags ++ [msg] } else s

/-- Process a file, directive by directive. -/
def preprocess (lib : MacroTable) (s : PPState) (ds : List Directive) : PPState :=
  ds.foldl (step lib) s

/-! ## The header -/

def msgTooOld : String := "FUSE version too old, 2.8.0 or newer required"

def msgUnsupported : String := "This version of the FUSE library is not yet supported."

def msgNoSystem : String := "\"Unable to determine system (Linux/FreeBSD/NetBSD/Darwin)\""

/-- Source lines 10 to 18: the include and the two version checks. -/
def versionGate : List Directive :=
  [ .includeFuse,
    .if_ (.lt (.ident .FUSE_VERSION) (.num 28)),
    .error msgTooOld,
    .endif,
    .if_ (.ne (.ident .FUSE_MAJOR_VERSION) (.num 2)),
    .error msgUnsupported,
    .endif ]

/-- Source lines 20 to 22: the three platform constants. -/
def platformConstants : List Directive :=
  [ .define .PLATFORM_LINUX (.num 1),
    .define .PLATFORM_BSD (.num 2),
    .define .PLATFORM_DARWIN (.num 3) ]

/-- Source lines 24 to 34: the platform chain. -/
def platformChain : List Directive :=
  [ .ifdef .__gnu_linux__,
    .define .PLATFORM (.name .PLATFORM_LINUX),
    .elif (.ident .__FreeBSD__),
    .define .PLATFORM (.name .PLATFORM_BSD),
    .elif (.ident .__NetBSD__),
    .define .PLATFORM (.name .PLATFORM_BSD),
    .elif (.land (.ident .__APPLE__) (.ident .__MACH__)),
    .define .PLATFORM (.name .PLATFORM_DARWIN),
    .else_,
    .error msgNoSystem,
    .endif ]

/-- The directives of `src/llfuse.h`, in source order. -/
def llfuse_h : List Directive :=
  versionGate ++ platformConstants ++ platformChain

/-! ## Configurations -/

/-- A configuration: for each macro the header tests, `none` when the macro is
not defined and `some v` when it is defined as the integer `v`. -/
structure Config where
  FUSE_VERSION : Option Int
  FUSE_MAJOR_VERSION : Option Int
  __gnu_linux__ : Option Int
  __FreeBSD__ : Option Int
  __NetBSD__ : Option Int
  __APPLE__ : Option Int
  __MACH__ : Option Int
  deriving DecidableEq, Repr

/-- The compiler's predefined macros. -/
def Config.predefined (c : Config) : MacroTable
  | .__gnu_linux__ => c.__gnu_linux__.map Tok.num
  | .__FreeBSD__ => c.__FreeBSD__.map Tok.num
  | .__NetBSD__ => c.__NetBSD__.map Tok.num
  | .__APPLE__ => c.__APPLE__.map Tok.num
  | .__MACH__ => c.__MACH__.map Tok.num
  | _ => none

/-- What `#include <fuse.h>` defines. -/
def Config.fuse_h (c : Config) : MacroTable
  | .FUSE_VERSION => c.FUSE_VERSION.map Tok.num
  | .FUSE_MAJOR_VERSION => c.FUSE_MAJOR_VERSION.map Tok.num
  | _ => none

/-- Preprocess `llfuse.h` in configuration `c`. -/
def run (c : Config) : PPState :=
  preprocess c.fuse_h ⟨c.predefined, [], []⟩ llfuse_h

/-- The `#error` directives reached, in order. -/
def diagnostics (c : Config) : List String := (run c).diags

/-- The header is accepted when no `#error` is reached. -/
def accepted (c : Config) : Bool := (diagnostics c).isEmpty

/-- The build is aborted when some `#error` is reached. -/
def aborted (c : Config) : Bool := !(accepted c)

/-- Both version checks pass: neither version `#error` is reached. -/
def versionChecksPass (c : Config) : Bool :=
  !(diagnostics c).contains msgTooOld && !(diagnostics c).contains msgUnsupported

/-- The replacement list of `PLATFORM` after the header, if it is defined. -/
def PLATFORM_def (c : Config) : Option Tok := (run c).table .PLATFORM

/-- The value `PLATFORM` expands to after the header, if it is defined. -/
def PLATFORM_value (c : Config) : Option Int :=
  ((run c).table .PLATFORM).map (expand (run c).table expandFuel)

/-- The value a constant of the header expands to after the header. -/
def constant_value (c : Config) (m : Macro) : Option Int :=
  ((run c).table m).map (expand (run c).table expandFuel)

/-! ## Reading a configuration -/

/-- The value a macro has inside `#if`: an undefined macro counts as `0`. -/
def ifValue (o : Option Int) : Int := o.getD 0

/-- A macro is defined with a non-zero value. -/
def nonZero (o : Option Int) : Bool :=
  match o with
  | some v => v != 0
  | none => false

/-- Some branch of the platform chain matches. -/
def platformKnown (c : Config) : Bool :=
  c.__gnu_linux__.isSome || nonZero c.__FreeBSD__ || nonZero c.__NetBSD__ ||
    (nonZero c.__APPLE__ && nonZero c.__MACH__)

/-- The macro table in front of the platform chain. -/
def tableBeforeChain (c : Config) : MacroTable :=
  (((c.predefined.overlay c.fuse_h).set .PLATFORM_LINUX (.num 1)).set
    .PLATFORM_BSD (.num 2)).set .PLATFORM_DARWIN (.num 3)

/-- The diagnostics of the two version checks. -/
def versionDiags (c : Config) : List String :=
  (if ifValue c.FUSE_VERSION < 28 then [msgTooOld] else []) ++
    (if ifValue c.FUSE_MAJOR_VERSION ≠ 2 then [msgUnsupported] else [])

/-- A FUSE 3.0 library on Linux: `FUSE_VERSION = 30`, `FUSE_MAJOR_VERSION = 3`,
`__gnu_linux__ = 1`, no other platform macro. -/
def fuse3_on_linux : Config := ⟨some 30, some 3, some 1, none, none, none, none⟩

/-- FUSE 2.7 on FreeBSD 13, no other platform macro. -/
def fuse27_on_freebsd : Config := ⟨some 27, some 2, none, some 13, none, none, none⟩

/-- Every platform macro set at once, with a supported FUSE 2.9. -/
def all_platform_macros : Config := ⟨some 29, some 2, some 1, some 1, some 1, some 1, some 1⟩

/-- FUSE 2.8 on Darwin. -/
def fuse28_on_darwin : Config := ⟨some 28, some 2, none, none, none, some 1, some 1⟩

/-- A macro is not defined, or defined as `0`. -/
def zeroOrUndefined (o : Option Int) : Bool :=
  match o with
  | some v => v == 0
  | none => true

/-- FUSE 2.9 with `__gnu_linux__` defined as `0` and nothing else. -/
def gnu_linux_zero : Config := ⟨some 29, some 2, some 0, none, none, none, none⟩

/-- FUSE 2.9 with `__FreeBSD__` defined as `0`, `__APPLE__` as `1`, `__MACH__` and the
rest undefined. -/
def apple_without_mach : Config := ⟨some 29, some 2, none, some 0, none, some 1, none⟩

end Llfuse

/-! ## The handle table of the specification

No source file of the repository implements the handle table; the definitions below
follow section 4.2 of the specification.
-/

namespace HandleTableSpec

/-- Modelled from the spec: the kernel-visible 64-bit handle identifier of section 2
(the Handle Table component is in no source file). -/
abbrev HandleId := Nat

/-- Modelled from the spec: the number of 64-bit identifiers. -/
def idSpace : Nat := 2 ^ 64

/-- Modelled from the spec: the `HandleError` of section 7 (unknown or stale
identifier), and the case that no identifier is free. -/
inductive HandleError
  | NotFound
  | Exhausted
  deriving DecidableEq, Repr

/-- Modelled from the spec: the Handle Table of section 2, a mapping from handle
identifiers to resource objects, with the monotonic counter of section 4.2. -/
structure HandleTable (ρ : Type) where
  entries : List (HandleId × ρ)
  counter : HandleId

/-- Modelled from the spec: an identifier is live (in use) when the table maps it. -/
def HandleTable.live {ρ : Type} (t : HandleTable ρ) (h : HandleId) : Bool :=
  (t.entries.lookup h).isSome

/-- Modelled from the spec: `resolve(HandleId) -> resource or NotFound` of section 4.2. -/
def resolve {ρ : Type} (t : HandleTable ρ) (h : HandleId) : Except HandleError ρ :=
  match t.entries.lookup h with
  | some r => .ok r
  | none => .error .NotFound

/-- Modelled from the spec: the liveness check of section 4.2; starting at `h`, step
through the identifiers, wrapping around, until one is not in use. -/
def probe {ρ : Type} (t : HandleTable ρ) : Nat → HandleId → Option HandleId
  | 0, _ => none
  | fuel + 1, h => if t.live h then probe t fuel ((h + 1) % idSpace) else some h

/-- Modelled from the spec: `allocate(resource) -> HandleId` of section 4.2; picks an
identifier not currently in use (monotonic counter with wraparound guarded by the
liveness check) and maps it to the resource. -/
def allocate {ρ : Type} (t : HandleTable ρ) (r : ρ) :
    Except HandleError (HandleId × HandleTable ρ) :=
  match probe t (t.entries.length + 1) (t.counter % idSpace) with
  | some h => .ok (h, ⟨(h, r) :: t.entries, (h + 1) % idSpace⟩)
  | none => .error .Exhausted

/-- Modelled from the spec: `release(HandleId)` of section 4.2; on an identifier that
is not in use it is an error surfaced to the caller and the table stays as it is. -/
def release {ρ : Type} (t : HandleTable ρ) (h : HandleId) :
    Except HandleError Unit × HandleTable ρ :=
  if t.live h then (.ok (), { t with entries := t.entries.filter (fun e => e.1 != h) })
  else (.error .NotFound, t)

/-- Modelled from the spec: one call made on the Handle Table by some handler,
`allocate(resource)` or `release(HandleId)` of section 4.2 (the Handle Table is in no
source file). -/
inductive Op (ρ : Type)
  | allocate (r : ρ)
  | release (k : HandleId)
  deriving DecidableEq, Repr

/-- Modelled from the spec: the table after one call; a failed call leaves the table
as it is. -/
def applyOp {ρ : Type} (t : HandleTable ρ) : Op ρ → HandleTable ρ
  | .allocate r =>
    match allocate t r with
    | .ok (_, t1) => t1
    | .error _ => t
  | .release k => (release t k).2

/-- Modelled from the spec: the table after a sequence of calls. -/
def applyOps {ρ : Type} (t : HandleTable ρ) (ops : List (Op ρ)) : HandleTable ρ :=
  ops.foldl applyOp t

/-- A table with one open resource, `"root"` under the identifier `0`. -/
def rootTable : HandleTable String := ⟨[(0, "root")], 1⟩

/-- The table after `"dir"` was allocated in `rootTable` (under the identifier `1`). -/
def dirTable : HandleTable String := ⟨[(1, "dir"), (0, "root")], 2⟩

/-- The table after `"file"` was allocated in `dirTable` (under the identifier `2`):
the identifier `1` is neither the newest nor the oldest one in use. -/
def fileTable : HandleTable String := applyOps dirTable [.allocate "file"]

end HandleTableSpec

namespace Llfuse

/-! ## How the header runs -/

theorem preprocess_append (lib : MacroTable) (s : PPState) (a b : List Directive) :
    preprocess lib s (a ++ b) = preprocess lib (preprocess lib s a) b := by
  simp [preprocess, List.foldl_append]

/-- A guarded `#error`: the message is recorded exactly when the controlling
expression is non-zero. -/
theorem guard_error (lib : MacroTable) (s : PPState) (e : Expr) (msg : String)
    (h : s.stack = []) :
    preprocess lib s [.if_ e, .error msg, .endif] =
      { s with diags := s.diags ++ (if e.eval s.table ≠ 0 then [msg] else []) } := by
  rcases s with ⟨T, st, d⟩
  subst h
  by_cases hc : e.eval T = 0 <;>
    simp [preprocess, step, including, hc]

/-- The platform chain takes its first matching branch. -/
theorem platformChain_eq (lib : MacroTable) (s : PPState) (h : s.stack = []) :
    preprocess lib s platformChain =
      if (s.table .__gnu_linux__).isSome then
        { s with table := s.table.set .PLATFORM (.name .PLATFORM_LINUX) }
      else if (Expr.ident .__FreeBSD__).eval s.table ≠ 0 then
        { s with table := s.table.set .PLATFORM (.name .PLATFORM_BSD) }
      else if (Expr.ident .__NetBSD__).eval s.table ≠ 0 then
        { s with table := s.table.set .PLATFORM (.name .PLATFORM_BSD) }
      else if (Expr.land (.ident .__APPLE__) (.ident .__MACH__)).eval s.table ≠ 0 then
        { s with table := s.table.set .PLATFORM (.name .PLATFORM_DARWIN) }
      else { s with diags := s.diags ++ [msgNoSystem] } := by
  rcases s with ⟨T, st, d⟩
  subst h
  by_cases h1 : (T .__gnu_linux__).isSome
  · simp [preprocess, platformChain, step, including, h1]
  by_cases h2 : (Expr.ident .__FreeBSD__).eval T = 0
  swap
  · simp [preprocess, platformChain, step, including, h1, h2]
  by_cases h3 : (Expr.ident .__NetBSD__).eval T = 0
  swap
  · simp [preprocess, platformChain, step, including, h1, h2, h3]
  by_cases h4 : (Expr.land (.ident .__APPLE__) (.ident .__MACH__)).eval T = 0
  swap
  · simp [preprocess, platformChain, step, including, h1, h2, h3, h4]
  · simp [preprocess, platformChain, step, including, h1, h2, h3, h4]

theorem eval_ident_fuse (c : Config) :
    (Expr.ident .FUSE_VERSION).eval (c.predefined.overlay c.fuse_h) = ifValue c.FUSE_VERSION ∧
    (Expr.ident .FUSE_MAJOR_VERSION).eval (c.predefined.overlay c.fuse_h)
      = ifValue c.FUSE_MAJOR_VERSION := by
  rcases c with ⟨fv, fm, g, fb, nb, ap, ma⟩
  cases fv <;> cases fm <;>
    simp [Expr.eval, expand, expandFuel, MacroTable.overlay, Config.predefined, Config.fuse_h,
      ifValue]

theorem versionGate_eq (c : Config) :
    preprocess c.fuse_h ⟨c.predefined, [], []⟩ (versionGate ++ platformConstants) =
      ⟨tableBeforeChain c, [], versionDiags c⟩ := by
  have h : versionGate ++ platformConstants =
      [.includeFuse] ++ ([.if_ (.lt (.ident .FUSE_VERSION) (.num 28)), .error msgTooOld, .endif]
        ++ ([.if_ (.ne (.ident .FUSE_MAJOR_VERSION) (.num 2)), .error msgUnsupported, .endif]
        ++ platformConstants)) := rfl
  rw [h, preprocess_append, preprocess_append, preprocess_append]
  have h0 : preprocess c.fuse_h ⟨c.predefined, [], []⟩ [.includeFuse] =
      ⟨c.predefined.overlay c.fuse_h, [], []⟩ := by
    simp [preprocess, step, including]
  rw [h0, guard_error _ ⟨c.predefined.overlay c.fuse_h, [], []⟩ _ _ rfl]
  rw [guard_error _ _ _ _ rfl]
  obtain ⟨e1, e2⟩ := eval_ident_fuse c
  simp [preprocess, step, including, platformConstants, tableBeforeChain, versionDiags,
    Expr.eval] at e1 e2 ⊢
  rw [e1, e2]

theorem eval_ident_platform (c : Config) :
    ((tableBeforeChain c .__gnu_linux__).isSome = c.__gnu_linux__.isSome) ∧
    ((Expr.ident .__FreeBSD__).eval (tableBeforeChain c) = ifValue c.__FreeBSD__) ∧
    ((Expr.ident .__NetBSD__).eval (tableBeforeChain c) = ifValue c.__NetBSD__) ∧
    ((Expr.ident .__APPLE__).eval (tableBeforeChain c) = ifValue c.__APPLE__) ∧
    ((Expr.ident .__MACH__).eval (tableBeforeChain c) = ifValue c.__MACH__) := by
  rcases c with ⟨fv, fm, g, fb, nb, ap, ma⟩
  refine ⟨?_, ?_, ?_, ?_, ?_⟩
  · cases g <;> simp [tableBeforeChain, MacroTable.set, MacroTable.overlay, Config.predefined,
      Config.fuse_h]
  · cases fb <;> simp [Expr.eval, expand, expandFuel, tableBeforeChain, MacroTable.set,
      MacroTable.overlay, Config.predefined, Config.fuse_h, ifValue]
  · cases nb <;> simp [Expr.eval, expand, expandFuel, tableBeforeChain, MacroTable.set,
      MacroTable.overlay, Config.predefined, Config.fuse_h, ifValue]
  · cases ap <;> simp [Expr.eval, expand, expandFuel, tableBeforeChain, MacroTable.set,
      MacroTable.overlay, Config.predefined, Config.fuse_h, ifValue]
  · cases ma <;> simp [Expr.eval, expand, expandFuel, tableBeforeChain, MacroTable.set,
      MacroTable.overlay, Config.predefined, Config.fuse_h, ifValue]

/-- The state in which the header leaves the preprocessor. -/
theorem run_eq (c : Config) :
    run c =
      if c.__gnu_linux__.isSome then
        ⟨(tableBeforeChain c).set .PLATFORM (.name .PLATFORM_LINUX), [], versionDiags c⟩
      else if ifValue c.__FreeBSD__ ≠ 0 then
        ⟨(tableBeforeChain c).set .PLATFORM (.name .PLATFORM_BSD), [], versionDiags c⟩
      else if ifValue c.__NetBSD__ ≠ 0 then
        ⟨(tableBeforeChain c).set .PLATFORM (.name .PLATFORM_BSD), [], versionDiags c⟩
      else if ifValue c.__APPLE__ ≠ 0 ∧ ifValue c.__MACH__ ≠ 0 then
        ⟨(tableBeforeChain c).set .PLATFORM (.name .PLATFORM_DARWIN), [], versionDiags c⟩
      else ⟨tableBeforeChain c, [], versionDiags c ++ [msgNoSystem]⟩ := by
  obtain ⟨e1, e2, e3, e4, e5⟩ := eval_ident_platform c
  rw [run, llfuse_h, preprocess_append, versionGate_eq, platformChain_eq _ _ rfl]
  simp only [Expr.eval] at e2 e3 e4 e5 ⊢
  simp only [e1, e2, e3, e4, e5]
  by_cases a1 : c.__gnu_linux__.isSome
  · simp [a1]
  by_cases a2 : ifValue c.__FreeBSD__ = 0
  swap
  · simp [a1, a2]
  by_cases a3 : ifValue c.__NetBSD__ = 0
  swap
  · simp [a1, a2, a3]
  by_cases a4 : ifValue c.__APPLE__ = 0
  · simp [a1, a2, a3, a4]
  by_cases a5 : ifValue c.__MACH__ = 0
  · simp [a1, a2, a3, a4, a5]
  · simp [a1, a2, a3, a4, a5]

theorem nonZero_iff (o : Option Int) : nonZero o = true ↔ ifValue o ≠ 0 := by
  cases o <;> simp [nonZero, ifValue]

theorem tableBeforeChain_PLATFORM (c : Config) : tableBeforeChain c .PLATFORM = none := by
  simp [tableBeforeChain, MacroTable.set, MacroTable.overlay, Config.predefined, Config.fuse_h]

/-- The diagnostics of the header, in terms of the configuration. -/
theorem diagnostics_eq (c : Config) :
    diagnostics c = versionDiags c ++ (if platformKnown c then [] else [msgNoSystem]) := by
  have f := nonZero_iff c.__FreeBSD__
  have n := nonZero_iff c.__NetBSD__
  have a := nonZero_iff c.__APPLE__
  have m := nonZero_iff c.__MACH__
  rw [diagnostics, run_eq, platformKnown]
  by_cases a1 : c.__gnu_linux__.isSome
  · simp [a1]
  by_cases a2 : ifValue c.__FreeBSD__ = 0
  swap
  · simp [a1, a2, f.2 a2]
  by_cases a3 : ifValue c.__NetBSD__ = 0
  swap
  · simp [a1, a2, a3, n.2 a3]
  have f0 : nonZero c.__FreeBSD__ = false := by
    cases hh : nonZero c.__FreeBSD__
    · rfl
    · exact absurd a2 (f.1 hh)
  have n0 : nonZero c.__NetBSD__ = false := by
    cases hh : nonZero c.__NetBSD__
    · rfl
    · exact absurd a3 (n.1 hh)
  by_cases a4 : ifValue c.__APPLE__ = 0
  · have p0 : nonZero c.__APPLE__ = false := by
      cases hh : nonZero c.__APPLE__
      · rfl
      · exact absurd a4 (a.1 hh)
    simp [a1, a2, a3, a4, f0, n0, p0]
  by_cases a5 : ifValue c.__MACH__ = 0
  · have m0 : nonZero c.__MACH__ = false := by
      cases hh : nonZero c.__MACH__
      · rfl
      · exact absurd a5 (m.1 hh)
    simp [a1, a2, a3, a4, a5, f0, n0, m0]
  · simp [a1, a2, a3, a4, a5, f0, n0, a.2 a4, m.2 a5]

/-- The definition of `PLATFORM` after the header, in terms of the configuration. -/
theorem PLATFORM_def_eq (c : Config) :
    PLATFORM_def c =
      if c.__gnu_linux__.isSome then some (.name .PLATFORM_LINUX)
      else if nonZero c.__FreeBSD__ || nonZero c.__NetBSD__ then some (.name .PLATFORM_BSD)
      else if nonZero c.__APPLE__ && nonZero c.__MACH__ then some (.name .PLATFORM_DARWIN)
      else none := by
  have f := nonZero_iff c.__FreeBSD__
  have n := nonZero_iff c.__NetBSD__
  have a := nonZero_iff c.__APPLE__
  have m := nonZero_iff c.__MACH__
  rw [PLATFORM_def, run_eq]
  by_cases a1 : c.__gnu_linux__.isSome
  · simp [a1, MacroTable.set]
  by_cases a2 : ifValue c.__FreeBSD__ = 0
  swap
  · simp [a1, a2, f.2 a2, MacroTable.set]
  by_cases a3 : ifValue c.__NetBSD__ = 0
  swap
  · simp [a1, a2, a3, n.2 a3, MacroTable.set]
  have f0 : nonZero c.__FreeBSD__ = false := by
    cases hh : nonZero c.__FreeBSD__
    · rfl
    · exact absurd a2 (f.1 hh)
  have n0 : nonZero c.__NetBSD__ = false := by
    cases hh : nonZero c.__NetBSD__
    · rfl
    · exact absurd a3 (n.1 hh)
  by_cases a4 : ifValue c.__APPLE__ = 0
  · have p0 : nonZero c.__APPLE__ = false := by
      cases hh : nonZero c.__APPLE__
      · rfl
      · exact absurd a4 (a.1 hh)
    simp [a1, a2, a3, a4, f0, n0, p0, tableBeforeChain_PLATFORM]
  by_cases a5 : ifValue c.__MACH__ = 0
  · have m0 : nonZero c.__MACH__ = false := by
      cases hh : nonZero c.__MACH__
      · rfl
      · exact absurd a5 (m.1 hh)
    simp [a1, a2, a3, a4, a5, f0, n0, m0, tableBeforeChain_PLATFORM]
  · simp [a1, a2, a3, a4, a5, f0, n0, a.2 a4, m.2 a5, MacroTable.set]

/-- The table of the final state agrees with the table in front of the platform
chain on every macro but `PLATFORM`. -/
theorem run_table_of_ne (c : Config) (m : Macro) (h : m ≠ .PLATFORM) :
    (run c).table m = tableBeforeChain c m := by
  rw [run_eq]
  split_ifs <;> simp [MacroTable.set, h]

/-- The three platform constants after the header. -/
theorem constant_value_eq (c : Config) :
    constant_value c .PLATFORM_LINUX = some 1 ∧ constant_value c .PLATFORM_BSD = some 2 ∧
      constant_value c .PLATFORM_DARWIN = some 3 := by
  refine ⟨?_, ?_, ?_⟩ <;>
    · rw [constant_value, run_table_of_ne c _ (by decide)]
      simp [tableBeforeChain, MacroTable.set, expand]

/-- The value of `PLATFORM` after the header, in terms of the configuration. -/
theorem PLATFORM_value_eq (c : Config) :
    PLATFORM_value c =
      if c.__gnu_linux__.isSome then some 1
      else if nonZero c.__FreeBSD__ || nonZero c.__NetBSD__ then some 2
      else if nonZero c.__APPLE__ && nonZero c.__MACH__ then some 3
      else none := by
  have hd := PLATFORM_def_eq c
  have hL := run_table_of_ne c .PLATFORM_LINUX (by decide)
  have hB := run_table_of_ne c .PLATFORM_BSD (by decide)
  have hD := run_table_of_ne c .PLATFORM_DARWIN (by decide)
  simp only [tableBeforeChain, MacroTable.set] at hL hB hD
  simp at hL hB hD
  rw [PLATFORM_def] at hd
  rw [PLATFORM_value, hd]
  split_ifs <;> simp [expand, expandFuel, hL, hB, hD]

/-- Acceptance in terms of the configuration. -/
theorem accepted_iff (c : Config) :
    accepted c = true ↔
      28 ≤ ifValue c.FUSE_VERSION ∧ ifValue c.FUSE_MAJOR_VERSION = 2 ∧ platformKnown c = true := by
  rw [accepted, diagnostics_eq, versionDiags]
  by_cases a1 : ifValue c.FUSE_VERSION < 28 <;>
    by_cases a2 : ifValue c.FUSE_MAJOR_VERSION = 2 <;>
    by_cases a3 : platformKnown c = true <;>
    simp [a1, a2, a3]
  all_goals omega

theorem mem_diagnostics_tooOld (c : Config) :
    msgTooOld ∈ diagnostics c ↔ ifValue c.FUSE_VERSION < 28 := by
  rw [diagnostics_eq, versionDiags]
  by_cases a1 : ifValue c.FUSE_VERSION < 28 <;>
    by_cases a2 : ifValue c.FUSE_MAJOR_VERSION = 2 <;>
    by_cases a3 : platformKnown c = true <;>
    simp [a1, a2, a3, msgTooOld, msgUnsupported, msgNoSystem]

theorem mem_diagnostics_unsupported (c : Config) :
    msgUnsupported ∈ diagnostics c ↔ ifValue c.FUSE_MAJOR_VERSION ≠ 2 := by
  rw [diagnostics_eq, versionDiags]
  by_cases a1 : ifValue c.FUSE_VERSION < 28 <;>
    by_cases a2 : ifValue c.FUSE_MAJOR_VERSION = 2 <;>
    by_cases a3 : platformKnown c = true <;>
    simp [a1, a2, a3, msgTooOld, msgUnsupported, msgNoSystem]

theorem mem_diagnostics_noSystem (c : Config) :
    msgNoSystem ∈ diagnostics c ↔ platformKnown c = false := by
  rw [diagnostics_eq, versionDiags]
  by_cases a1 : ifValue c.FUSE_VERSION < 28 <;>
    by_cases a2 : ifValue c.FUSE_MAJOR_VERSION = 2 <;>
    by_cases a3 : platformKnown c = true <;>
    simp [a1, a2, a3, msgTooOld, msgUnsupported, msgNoSystem]

theorem versionChecksPass_iff (c : Config) :
    versionChecksPass c = true ↔
      28 ≤ ifValue c.FUSE_VERSION ∧ ifValue c.FUSE_MAJOR_VERSION = 2 := by
  have h1 := mem_diagnostics_tooOld c
  have h2 := mem_diagnostics_unsupported c
  have e1 : (diagnostics c).contains msgTooOld = decide (ifValue c.FUSE_VERSION < 28) := by
    rw [Bool.eq_iff_iff]
    simp [h1]
  have e2 : (diagnostics c).contains msgUnsupported
      = decide (ifValue c.FUSE_MAJOR_VERSION ≠ 2) := by
    rw [Bool.eq_iff_iff]
    simp [h2]
  rw [versionChecksPass, e1, e2]
  simp

/-! ## The claims about the gate -/

/-- C1, counterexample: with a FUSE 3.0 library on Linux the build is aborted (by the
"not yet supported" `#error` alone), although the platform is a known one and
`FUSE_VERSION` is not below 28; so "aborted iff unknown platform or
`FUSE_VERSION < 28`" fails there. -/
theorem C1_fuse3_on_linux_aborted :
    diagnostics fuse3_on_linux = [msgUnsupported] ∧
    ¬ (aborted fuse3_on_linux = true ↔
        (platformKnown fuse3_on_linux = false ∨ ifValue fuse3_on_linux.FUSE_VERSION < 28)) := by
  decide

/-- C1, amended: the build is aborted if and only if no platform branch matches, or
`FUSE_VERSION < 28`, or `FUSE_MAJOR_VERSION ≠ 2`; in every other configuration the
header is accepted. -/
theorem C1_aborted_iff (c : Config) :
    (aborted c = true ↔
      (platformKnown c = false ∨ ifValue c.FUSE_VERSION < 28 ∨
        ifValue c.FUSE_MAJOR_VERSION ≠ 2)) ∧
    (accepted c = true ↔
      ¬ (platformKnown c = false ∨ ifValue c.FUSE_VERSION < 28 ∨
        ifValue c.FUSE_MAJOR_VERSION ≠ 2)) := by
  have h := accepted_iff c
  have hab : aborted c = true ↔ ¬ (accepted c = true) := by simp [aborted]
  rw [hab, h]
  constructor
  · constructor
    · intro hn
      by_cases p : platformKnown c = true
      · by_cases v : ifValue c.FUSE_VERSION < 28
        · exact Or.inr (Or.inl v)
        · by_cases m : ifValue c.FUSE_MAJOR_VERSION = 2
          · exact absurd ⟨by omega, m, p⟩ hn
          · exact Or.inr (Or.inr m)
      · exact Or.inl (by simpa using p)
    · rintro (p | v | m) ⟨a, b, d⟩
      · rw [p] at d
        exact Bool.noConfusion d
      · omega
      · exact m b
  · constructor
    · rintro ⟨a, b, d⟩ (p | v | m)
      · rw [p] at d
        exact Bool.noConfusion d
      · omega
      · exact m b
    · intro hn
      refine ⟨?_, ?_, ?_⟩
      · by_contra v
        exact hn (Or.inr (Or.inl (by omega)))
      · by_contra m
        exact hn (Or.inr (Or.inr m))
      · by_contra p
        exact hn (Or.inl (by simpa using p))

/-- C3: the header is accepted if and only if `FUSE_VERSION >= 28`,
`FUSE_MAJOR_VERSION = 2` and a platform branch matches (`__gnu_linux__` defined, or
`__FreeBSD__` non-zero, or `__NetBSD__` non-zero, or both `__APPLE__` and `__MACH__`
non-zero); each violated condition reaches its own `#error` whatever the other two
are; with the other two conditions met, `FUSE_VERSION = 28` is accepted and `27` is
rejected. -/
theorem C3_accepted_iff (c : Config) :
    (accepted c = true ↔
      (28 ≤ ifValue c.FUSE_VERSION ∧ ifValue c.FUSE_MAJOR_VERSION = 2 ∧
        (c.__gnu_linux__.isSome = true ∨ nonZero c.__FreeBSD__ = true ∨
          nonZero c.__NetBSD__ = true ∨
          (nonZero c.__APPLE__ = true ∧ nonZero c.__MACH__ = true)))) ∧
    (ifValue c.FUSE_VERSION < 28 → msgTooOld ∈ diagnostics c ∧ aborted c = true) ∧
    (ifValue c.FUSE_MAJOR_VERSION ≠ 2 → msgUnsupported ∈ diagnostics c ∧ aborted c = true) ∧
    (¬ (c.__gnu_linux__.isSome = true ∨ nonZero c.__FreeBSD__ = true ∨
          nonZero c.__NetBSD__ = true ∨
          (nonZero c.__APPLE__ = true ∧ nonZero c.__MACH__ = true)) →
      msgNoSystem ∈ diagnostics c ∧ aborted c = true) ∧
    (ifValue c.FUSE_MAJOR_VERSION = 2 →
      (c.__gnu_linux__.isSome = true ∨ nonZero c.__FreeBSD__ = true ∨
          nonZero c.__NetBSD__ = true ∨
          (nonZero c.__APPLE__ = true ∧ nonZero c.__MACH__ = true)) →
      accepted { c with FUSE_VERSION := some 28 } = true ∧
      accepted { c with FUSE_VERSION := some 27 } = false) := by
  have hp : platformKnown c = true ↔
      (c.__gnu_linux__.isSome = true ∨ nonZero c.__FreeBSD__ = true ∨
          nonZero c.__NetBSD__ = true ∨
          (nonZero c.__APPLE__ = true ∧ nonZero c.__MACH__ = true)) := by
    simp [platformKnown, or_assoc]
  have hacc := accepted_iff c
  have hab : aborted c = true ↔ ¬ (accepted c = true) := by simp [aborted]
  rw [← hp]
  refine ⟨hacc, ?_, ?_, ?_, ?_⟩
  · intro v
    refine ⟨(mem_diagnostics_tooOld c).2 v, hab.2 ?_⟩
    rw [hacc]
    rintro ⟨a, _, _⟩
    omega
  · intro m
    refine ⟨(mem_diagnostics_unsupported c).2 m, hab.2 ?_⟩
    rw [hacc]
    rintro ⟨_, b, _⟩
    exact m b
  · intro p
    refine ⟨(mem_diagnostics_noSystem c).2 (by simpa using p), hab.2 ?_⟩
    rw [hacc]
    rintro ⟨_, _, d⟩
    exact p d
  · intro m p
    constructor
    · rw [accepted_iff]
      exact ⟨by simp [ifValue], m, p⟩
    · cases hh : accepted { c with FUSE_VERSION := some 27 }
      · rfl
      · rw [accepted_iff] at hh
        obtain ⟨a, _, _⟩ := hh
        simp [ifValue] at a

/-- C3 at concrete configurations: the too-old `#error` for FUSE 2.7 on FreeBSD, the
unsupported `#error` for FUSE 3.0 on Linux, and the boundary 28 / 27 on FreeBSD. -/
theorem C3_accepted_iff_witness :
    (msgTooOld ∈ diagnostics fuse27_on_freebsd ∧ aborted fuse27_on_freebsd = true) ∧
    (msgUnsupported ∈ diagnostics fuse3_on_linux ∧ aborted fuse3_on_linux = true) ∧
    (accepted { fuse27_on_freebsd with FUSE_VERSION := some 28 } = true ∧
      accepted { fuse27_on_freebsd with FUSE_VERSION := some 27 } = false) :=
  ⟨(C3_accepted_iff fuse27_on_freebsd).2.1 (by decide),
   (C3_accepted_iff fuse3_on_linux).2.2.1 (by decide),
   (C3_accepted_iff fuse27_on_freebsd).2.2.2.2 (by decide) (by decide)⟩

/-- C2: in every accepted configuration `PLATFORM` is chosen by first match in the
order Linux, BSD, Darwin: it is `PLATFORM_LINUX` exactly when `__gnu_linux__`
is defined; `PLATFORM_BSD` exactly when `__gnu_linux__` is not defined and `__FreeBSD__`
or `__NetBSD__` is non-zero; `PLATFORM_DARWIN` exactly when neither holds and both
`__APPLE__` and `__MACH__` are non-zero.  The same holds for the values the macros
expand to. -/
theorem C2_PLATFORM_first_match (c : Config) (h : accepted c = true) :
    (PLATFORM_def c = some (.name .PLATFORM_LINUX) ↔ c.__gnu_linux__.isSome = true) ∧
    (PLATFORM_def c = some (.name .PLATFORM_BSD) ↔
      c.__gnu_linux__ = none ∧ (nonZero c.__FreeBSD__ = true ∨ nonZero c.__NetBSD__ = true)) ∧
    (PLATFORM_def c = some (.name .PLATFORM_DARWIN) ↔
      c.__gnu_linux__ = none ∧ ¬ (nonZero c.__FreeBSD__ = true ∨ nonZero c.__NetBSD__ = true) ∧
        nonZero c.__APPLE__ = true ∧ nonZero c.__MACH__ = true) ∧
    (PLATFORM_value c = constant_value c .PLATFORM_LINUX ↔ c.__gnu_linux__.isSome = true) ∧
    (PLATFORM_value c = constant_value c .PLATFORM_BSD ↔
      c.__gnu_linux__ = none ∧ (nonZero c.__FreeBSD__ = true ∨ nonZero c.__NetBSD__ = true)) ∧
    (PLATFORM_value c = constant_value c .PLATFORM_DARWIN ↔
      c.__gnu_linux__ = none ∧ ¬ (nonZero c.__FreeBSD__ = true ∨ nonZero c.__NetBSD__ = true) ∧
        nonZero c.__APPLE__ = true ∧ nonZero c.__MACH__ = true) := by
  have hk := ((accepted_iff c).1 h).2.2
  obtain ⟨k1, k2, k3⟩ := constant_value_eq c
  rw [PLATFORM_def_eq, PLATFORM_value_eq, k1, k2, k3]
  rw [platformKnown] at hk
  cases hg : c.__gnu_linux__ <;> cases hf : nonZero c.__FreeBSD__ <;>
    cases hn : nonZero c.__NetBSD__ <;> cases ha : nonZero c.__APPLE__ <;>
    cases hm : nonZero c.__MACH__ <;> simp [hg, hf, hn, ha, hm] at hk ⊢

/-- C2 at a configuration with every platform macro set: Linux wins. -/
theorem C2_PLATFORM_first_match_witness :
    accepted all_platform_macros = true ∧
    (PLATFORM_def all_platform_macros = some (.name .PLATFORM_LINUX) ↔
      all_platform_macros.__gnu_linux__.isSome = true) :=
  ⟨by decide, (C2_PLATFORM_first_match all_platform_macros (by decide)).1⟩

/-- C7: when `FUSE_VERSION = 10 * FUSE_MAJOR_VERSION + FUSE_MINOR_VERSION` with a
non-negative minor (and any major, so in particular a non-negative one), both version checks pass if and only if the major is 2
and the minor is at least 8; every library of major 3 or later is rejected by the
"not yet supported" check although its `FUSE_VERSION` is at least 28, and every 2.x
library with minor below 8 is rejected by the "too old" check. -/
theorem C7_version_checks (c : Config) (major minor : Int)
    (hminor : 0 ≤ minor) (hM : c.FUSE_MAJOR_VERSION = some major)
    (hV : c.FUSE_VERSION = some (10 * major + minor)) :
    (versionChecksPass c = true ↔ major = 2 ∧ 8 ≤ minor) ∧
    (3 ≤ major → 28 ≤ 10 * major + minor ∧ msgUnsupported ∈ diagnostics c ∧
      versionChecksPass c = false ∧ accepted c = false) ∧
    (major = 2 → minor < 8 → msgTooOld ∈ diagnostics c ∧
      versionChecksPass c = false ∧ accepted c = false) := by
  have e1 : ifValue c.FUSE_VERSION = 10 * major + minor := by rw [hV]; rfl
  have e2 : ifValue c.FUSE_MAJOR_VERSION = major := by rw [hM]; rfl
  have hv := versionChecksPass_iff c
  have ha := accepted_iff c
  rw [e1, e2] at hv ha
  have hnv : ¬ (28 ≤ 10 * major + minor ∧ major = 2) → versionChecksPass c = false := by
    intro hn
    cases hh : versionChecksPass c
    · rfl
    · exact absurd (hv.1 hh) hn
  have hna : ¬ (28 ≤ 10 * major + minor ∧ major = 2) → accepted c = false := by
    intro hn
    cases hh : accepted c
    · rfl
    · exact absurd ⟨(ha.1 hh).1, (ha.1 hh).2.1⟩ hn
  refine ⟨?_, ?_, ?_⟩
  · rw [hv]
    constructor
    · rintro ⟨a, b⟩
      exact ⟨b, by omega⟩
    · rintro ⟨a, b⟩
      exact ⟨by omega, a⟩
  · intro h3
    refine ⟨by omega, (mem_diagnostics_unsupported c).2 (by rw [e2]; omega), hnv ?_, hna ?_⟩ <;>
      · rintro ⟨_, b⟩
        omega
  · intro h2 h8
    refine ⟨(mem_diagnostics_tooOld c).2 (by rw [e1]; omega), hnv ?_, hna ?_⟩ <;>
      · rintro ⟨a, _⟩
        omega

/-- C7 at FUSE 3.0 on Linux (major 3, minor 0): rejected although `FUSE_VERSION = 30`;
and at FUSE 2.9 (major 2, minor 9): both checks pass. -/
theorem C7_version_checks_witness :
    ((28 : Int) ≤ 10 * 3 + 0 ∧ msgUnsupported ∈ diagnostics fuse3_on_linux ∧
      versionChecksPass fuse3_on_linux = false ∧ accepted fuse3_on_linux = false) ∧
    versionChecksPass all_platform_macros = true :=
  ⟨(C7_version_checks fuse3_on_linux 3 0 (by decide) rfl rfl).2.1 (by decide),
   (C7_version_checks all_platform_macros 2 9 (by decide) rfl rfl).1.2 ⟨rfl, by decide⟩⟩

/-- C8: in every accepted configuration `PLATFORM` is defined and expands to 1, 2 or
3, which are the pairwise distinct values of `PLATFORM_LINUX`, `PLATFORM_BSD` and
`PLATFORM_DARWIN`; and two accepted configurations that agree on the five platform
macros get the same `PLATFORM`, whatever their version macros are. -/
theorem C8_PLATFORM_range (c : Config) (h : accepted c = true) :
    (∃ v, PLATFORM_value c = some v ∧ (v = 1 ∨ v = 2 ∨ v = 3)) ∧
    (PLATFORM_value c = constant_value c .PLATFORM_LINUX ∨
      PLATFORM_value c = constant_value c .PLATFORM_BSD ∨
      PLATFORM_value c = constant_value c .PLATFORM_DARWIN) ∧
    (constant_value c .PLATFORM_LINUX = some 1 ∧ constant_value c .PLATFORM_BSD = some 2 ∧
      constant_value c .PLATFORM_DARWIN = some 3) ∧
    (constant_value c .PLATFORM_LINUX ≠ constant_value c .PLATFORM_BSD ∧
      constant_value c .PLATFORM_LINUX ≠ constant_value c .PLATFORM_DARWIN ∧
      constant_value c .PLATFORM_BSD ≠ constant_value c .PLATFORM_DARWIN) ∧
    (∀ d : Config, accepted d = true →
      d.__gnu_linux__ = c.__gnu_linux__ → d.__FreeBSD__ = c.__FreeBSD__ →
      d.__NetBSD__ = c.__NetBSD__ → d.__APPLE__ = c.__APPLE__ → d.__MACH__ = c.__MACH__ →
      PLATFORM_value d = PLATFORM_value c ∧ PLATFORM_def d = PLATFORM_def c) := by
  have hk := ((accepted_iff c).1 h).2.2
  obtain ⟨k1, k2, k3⟩ := constant_value_eq c
  refine ⟨?_, ?_, ⟨k1, k2, k3⟩, ?_, ?_⟩
  · rw [PLATFORM_value_eq]
    rw [platformKnown] at hk
    cases hg : c.__gnu_linux__ <;> cases hf : nonZero c.__FreeBSD__ <;>
      cases hn : nonZero c.__NetBSD__ <;> cases ha : nonZero c.__APPLE__ <;>
      cases hm : nonZero c.__MACH__ <;> simp [hg, hf, hn, ha, hm] at hk ⊢
  · rw [PLATFORM_value_eq, k1, k2, k3]
    rw [platformKnown] at hk
    cases hg : c.__gnu_linux__ <;> cases hf : nonZero c.__FreeBSD__ <;>
      cases hn : nonZero c.__NetBSD__ <;> cases ha : nonZero c.__APPLE__ <;>
      cases hm : nonZero c.__MACH__ <;> simp [hg, hf, hn, ha, hm] at hk ⊢
  · rw [k1, k2, k3]
    decide
  · intro d _ g f n a m
    rw [PLATFORM_value_eq, PLATFORM_value_eq, PLATFORM_def_eq, PLATFORM_def_eq, g, f, n, a, m]
    exact ⟨rfl, rfl⟩

/-- C8 at FUSE 2.8 on Darwin, compared with FUSE 2.9 on Darwin. -/
theorem C8_PLATFORM_range_witness :
    accepted fuse28_on_darwin = true ∧
    (∃ v, PLATFORM_value fuse28_on_darwin = some v ∧ (v = 1 ∨ v = 2 ∨ v = 3)) ∧
    PLATFORM_value { fuse28_on_darwin with FUSE_VERSION := some 29 }
      = PLATFORM_value fuse28_on_darwin :=
  ⟨by decide, (C8_PLATFORM_range fuse28_on_darwin (by decide)).1,
    ((C8_PLATFORM_range fuse28_on_darwin (by decide)).2.2.2.2
      { fuse28_on_darwin with FUSE_VERSION := some 29 } (by decide) rfl rfl rfl rfl rfl).1⟩

/-- C9: with both version checks passing, a configuration in which `__gnu_linux__`
is defined as `0` gets `PLATFORM = PLATFORM_LINUX` (the test is `#ifdef`), whereas a
configuration in which `__gnu_linux__` is not defined, `__FreeBSD__` and `__NetBSD__`
are undefined or `0`, and `__APPLE__` or `__MACH__` is undefined or `0`, reaches the
"Unable to determine system" `#error` and leaves `PLATFORM` undefined (the tests are
on the value). -/
theorem C9_defined_versus_nonzero (c : Config) (hv : versionChecksPass c = true) :
    (c.__gnu_linux__ = some 0 →
      accepted c = true ∧ PLATFORM_def c = some (.name .PLATFORM_LINUX) ∧
        PLATFORM_value c = some 1) ∧
    (c.__gnu_linux__ = none → zeroOrUndefined c.__FreeBSD__ = true →
      zeroOrUndefined c.__NetBSD__ = true →
      zeroOrUndefined c.__APPLE__ = true ∨ zeroOrUndefined c.__MACH__ = true →
      diagnostics c = [msgNoSystem] ∧ PLATFORM_def c = none) := by
  obtain ⟨v1, v2⟩ := (versionChecksPass_iff c).1 hv
  have z : ∀ o : Option Int, zeroOrUndefined o = true → nonZero o = false := by
    intro o ho
    cases o <;> simp_all [zeroOrUndefined, nonZero]
  constructor
  · intro g
    refine ⟨(accepted_iff c).2 ⟨v1, v2, by simp [platformKnown, g]⟩, ?_, ?_⟩
    · rw [PLATFORM_def_eq]
      simp [g]
    · rw [PLATFORM_value_eq]
      simp [g]
  · intro g f n am
    have hk : platformKnown c = false := by
      rcases am with a | m
      · simp [platformKnown, g, z _ f, z _ n, z _ a]
      · simp [platformKnown, g, z _ f, z _ n, z _ m]
    constructor
    · rw [diagnostics_eq, versionDiags, hk]
      simp [v2]
      omega
    · rw [PLATFORM_def_eq]
      rcases am with a | m
      · simp [g, z _ f, z _ n, z _ a]
      · simp [g, z _ f, z _ n, z _ m]

/-- C9 at the two configurations above. -/
theorem C9_defined_versus_nonzero_witness :
    (accepted gnu_linux_zero = true ∧
      PLATFORM_def gnu_linux_zero = some (.name .PLATFORM_LINUX) ∧
      PLATFORM_value gnu_linux_zero = some 1) ∧
    (diagnostics apple_without_mach = [msgNoSystem] ∧ PLATFORM_def apple_without_mach = none) :=
  ⟨(C9_defined_versus_nonzero gnu_linux_zero (by decide)).1 rfl,
   (C9_defined_versus_nonzero apple_without_mach (by decide)).2 rfl (by decide) (by decide)
     (Or.inr (by decide))⟩

end Llfuse

namespace HandleTableSpec

/-! ## The handle table: releasing twice -/

theorem lookup_filter_self {ρ : Type} (l : List (HandleId × ρ)) (h : HandleId) :
    (l.filter (fun e => e.1 != h)).lookup h = none := by
  induction l with
  | nil => rfl
  | cons e l ih =>
    obtain ⟨j, r⟩ := e
    by_cases hj : j = h
    · rw [List.filter_cons_of_neg (by simp [hj])]
      exact ih
    · have hhj : (h == j) = false := by simpa using fun e => hj e.symm
      rw [List.filter_cons_of_pos (by simpa using hj), List.lookup_cons, hhj]
      exact ih

theorem lookup_filter_other {ρ : Type} (l : List (HandleId × ρ)) (h k : HandleId)
    (hne : k ≠ h) : (l.filter (fun e => e.1 != h)).lookup k = l.lookup k := by
  induction l with
  | nil => rfl
  | cons e l ih =>
    obtain ⟨j, r⟩ := e
    by_cases hj : j = h
    · have hkj : (k == j) = false := by simpa [hj] using hne
      rw [List.filter_cons_of_neg (by simp [hj]), List.lookup_cons, hkj]
      exact ih
    · rw [List.filter_cons_of_pos (by simpa using hj), List.lookup_cons, List.lookup_cons, ih]

theorem probe_not_live {ρ : Type} (t : HandleTable ρ) (fuel : Nat) (start h : HandleId)
    (hp : probe t fuel start = some h) : t.live h = false := by
  induction fuel generalizing start with
  | zero => simp [probe] at hp
  | succ n ih =>
    rw [probe] at hp
    by_cases hl : t.live start = true
    · rw [if_pos hl] at hp
      exact ih _ hp
    · rw [if_neg hl] at hp
      cases hp
      simpa using hl

/-- A successful `allocate` returns an identifier that was not in use and puts the
new entry in front of the old ones. -/
theorem allocate_ok {ρ : Type} (t t1 : HandleTable ρ) (r : ρ) (h : HandleId)
    (ha : allocate t r = .ok (h, t1)) :
    t.live h = false ∧ t1.entries = (h, r) :: t.entries := by
  unfold allocate at ha
  split at ha
  · rename_i h1 hp
    simp only [Except.ok.injEq, Prod.mk.injEq] at ha
    obtain ⟨rfl, rfl⟩ := ha
    exact ⟨probe_not_live _ _ _ _ hp, rfl⟩
  · exact Except.noConfusion ha

/-- A call other than `release h` does not change what `h` is mapped to, when `h` is
in use. -/
theorem applyOp_lookup {ρ : Type} (t : HandleTable ρ) (op : Op ρ) (h : HandleId) (r : ρ)
    (hl : t.entries.lookup h = some r) (hop : op ≠ .release h) :
    (applyOp t op).entries.lookup h = some r := by
  cases op with
  | allocate x =>
    rw [applyOp]
    split
    · rename_i j t1 hx
      obtain ⟨hj, he⟩ := allocate_ok t t1 x j hx
      have hne : (h == j) = false := by
        have : h ≠ j := by
          rintro rfl
          simp [HandleTable.live, hl] at hj
        simpa using this
      rw [he, List.lookup_cons, hne]
      exact hl
    · exact hl
  | release k =>
    have hk : h ≠ k := fun e => hop (by rw [e])
    rw [applyOp, release]
    split
    · rw [lookup_filter_other _ _ _ hk]
      exact hl
    · exact hl

theorem applyOps_lookup {ρ : Type} (ops : List (Op ρ)) (t : HandleTable ρ) (h : HandleId)
    (r : ρ) (hl : t.entries.lookup h = some r) (hops : ∀ op ∈ ops, op ≠ .release h) :
    (applyOps t ops).entries.lookup h = some r := by
  induction ops generalizing t with
  | nil => exact hl
  | cons op ops ih =>
    rw [applyOps, List.foldl_cons]
    exact ih _ (applyOp_lookup t op h r hl (hops op (List.mem_cons_self _ _)))
      (fun o ho => hops o (List.mem_cons_of_mem _ ho))

/-- In any table, releasing an identifier that is in use succeeds and removes it. -/
theorem release_live {ρ : Type} (t : HandleTable ρ) (h : HandleId) (hl : t.live h = true) :
    release t h = (.ok (), { t with entries := t.entries.filter (fun e => e.1 != h) }) := by
  simp [release, hl]

/-- In any table, releasing an identifier that is not in use is the error `NotFound`. -/
theorem release_not_live {ρ : Type} (t : HandleTable ρ) (h : HandleId)
    (hl : t.live h = false) : release t h = (.error .NotFound, t) := by
  simp [release, hl]

/-- C6: let `h` be the identifier a successful `allocate` returned in any table `t0`,
and let any sequence of further `allocate` and `release` calls follow that does not
release `h`.  In the table `t` reached, whatever it is, `h` still resolves to its
resource and `release h` succeeds; a second `release h` returns the error `NotFound`;
and after that failed call `resolve` gives, for every identifier other than `h`, what
it gave in `t` before `h` was released at all, while `h` itself is `NotFound`. -/
theorem C6_release_twice {ρ : Type} (t0 t1 : HandleTable ρ) (r : ρ) (h : HandleId)
    (ops : List (Op ρ)) (ha : allocate t0 r = .ok (h, t1))
    (hops : ∀ op ∈ ops, op ≠ .release h) :
    resolve (applyOps t1 ops) h = .ok r ∧
    (release (applyOps t1 ops) h).1 = .ok () ∧
    (release (release (applyOps t1 ops) h).2 h).1 = .error .NotFound ∧
    (∀ k, k ≠ h →
      resolve (release (release (applyOps t1 ops) h).2 h).2 k = resolve (applyOps t1 ops) k) ∧
    resolve (release (release (applyOps t1 ops) h).2 h).2 h = .error .NotFound := by
  have h1 : t1.entries.lookup h = some r := by
    rw [(allocate_ok t0 t1 r h ha).2, List.lookup_cons]
    simp
  have hl := applyOps_lookup ops t1 h r h1 hops
  generalize applyOps t1 ops = t at hl
  have hlive : t.live h = true := by simp [HandleTable.live, hl]
  have hdead : ({ t with entries := t.entries.filter (fun e => e.1 != h) } : HandleTable ρ).live h
      = false := by
    simp [HandleTable.live, lookup_filter_self]
  have e1 := release_live t h hlive
  have e2 := release_not_live _ h hdead
  refine ⟨by simp only [resolve, hl], by rw [e1], ?_, fun k hk => ?_, ?_⟩
  · rw [e1]
    dsimp only
    rw [e2]
  · rw [e1]
    dsimp only
    rw [e2]
    simp only [resolve, lookup_filter_other _ _ _ hk]
  · rw [e1]
    dsimp only
    rw [e2]
    simp only [resolve, lookup_filter_self]

/-- C6 at a table with three identifiers in use, `0`, `1` and `2`: `1` was allocated
second; after it is released twice the second call has failed and the unrelated
identifiers `0` and `2` still resolve to `"root"` and `"file"`. -/
theorem C6_release_twice_witness :
    allocate rootTable "dir" = .ok (1, dirTable) ∧
    (release (release fileTable 1).2 1).1 = .error .NotFound ∧
    resolve (release (release fileTable 1).2 1).2 0 = resolve fileTable 0 ∧
    resolve (release (release fileTable 1).2 1).2 2 = resolve fileTable 2 ∧
    resolve fileTable 0 = .ok "root" ∧ resolve fileTable 2 = .ok "file" :=
  ⟨rfl,
   (C6_release_twice rootTable dirTable "dir" 1 [.allocate "file"] rfl (by simp)).2.2.1,
   (C6_release_twice rootTable dirTable "dir" 1 [.allocate "file"] rfl (by simp)).2.2.2.1 0
     (by decide),
   (C6_release_twice rootTable dirTable "dir" 1 [.allocate "file"] rfl (by simp)).2.2.2.1 2
     (by decide),
   rfl, rfl⟩

end HandleTableSpec
